import Mathlib

/-!
Verification of the Framingham CHD dashboard data-preparation pipeline.

Shallow embedding of `IndividualProject_ChristelleKhoury.py` (the derived
columns of the data loader and the aggregation pipeline, lines 38-134).
A table is a `List Row`; pandas column operations become list operations:

* `df[mask]` is `List.filter`;
* `groupby(col)[y].mean()` with the default `sort=True` is modelled, for a
  string-keyed column, as the deduplicated observed key list sorted
  lexicographically, each key paired with the mean of `y` over its group;
  rows whose key is missing (NaN) are dropped, as pandas does. For the
  categorical `Smoking_Intensity` column the pandas 2.x default
  `observed=False` applies instead: every category of the dtype appears as
  a group, in category-code order, and a category with no rows carries a
  missing mean (NaN, modelled as `none`), which stays missing after the
  scaling to percent;
* `pd.cut(..., bins=[0,9,19,70], right=False)` is the partial function
  `cutIntensity` into the three half-open intervals `[0,9)`, `[9,19)`,
  `[19,70)`, `none` outside `[0,70)`;
* `sort_values` on a `pd.Categorical` column is a comparison sort on the
  position of the value in the fixed category list (values not in the list
  sort last, like NaN categories);
* numeric CSV cells are `ℚ` (the data is finite decimals), ages are `Int`.
-/

/-- One row of the loaded CSV, with the columns the dashboard uses.
`education` is nullable in the data, hence `Option ℚ`. -/
structure Row where
  gender : String
  age : Int
  currentSmoker : Int
  cigsPerDay : ℚ
  education : Option ℚ
  BMI : ℚ
  totChol : ℚ
  BP_Category : String
  TenYearCHD : ℚ
deriving DecidableEq, Repr

/-- Line 38: the derived Smoking_Status column, applied per row: the label
Current Smoker if currentSmoker == 1, else Non-Smoker. -/
def smokingStatus (r : Row) : String :=
  if r.currentSmoker = 1 then "Current Smoker" else "Non-Smoker"

/-- Lines 39-40: the `education_map` dict applied with `Series.map`; a key
not in the dict (including a missing value) yields NaN, i.e. `none`. -/
def educationMap (x : Option ℚ) : Option String :=
  match x with
  | none => none
  | some v =>
    if v = 1 then some "Some High School"
    else if v = 2 then some "High School/GED"
    else if v = 3 then some "Some College"
    else if v = 4 then some "College"
    else none

/-- The derived `Education_Level` column of a row. -/
def educationLevel (r : Row) : Option String :=
  educationMap r.education

/-- Lines 60-63: filtered_data keeps the rows whose gender is in the
selected gender_options and whose age is between the two slider bounds;
pandas Series.between is inclusive on both ends by default. -/
def filteredData (rows : List Row) (genders : List String) (lo hi : Int) : List Row :=
  rows.filter fun r => decide (r.gender ∈ genders) && decide (lo ≤ r.age) && decide (r.age ≤ hi)

/-- Line 65: risk_data, the filtered rows with TenYearCHD == 1. -/
def riskData (rows : List Row) : List Row :=
  rows.filter fun r => decide (r.TenYearCHD = 1)

/-- Mean of a list of rationals (`Series.mean`); only ever applied to
nonempty groups. -/
def qmean (xs : List ℚ) : ℚ :=
  xs.sum / (xs.length : ℚ)

/-- The rows of a group: those whose (possibly missing) key equals `c`. -/
def groupOf (key : Row → Option String) (rows : List Row) (c : String) : List Row :=
  rows.filter fun r => decide (key r = some c)

/-- The group keys produced by `groupby`: observed non-NaN keys, without
duplicates, sorted by the key order `le` of the column (pandas sorts group
keys by default). -/
def groupKeys (le : String → String → Prop) [DecidableRel le]
    (key : Row → Option String) (rows : List Row) : List String :=
  List.insertionSort le (rows.filterMap key).dedup

/-- Modelling of groupby(col) followed by taking the mean of TenYearCHD and
reset_index: one `(key, mean)` pair per observed group. -/
def groupbyMeanCHD (le : String → String → Prop) [DecidableRel le]
    (key : Row → Option String) (rows : List Row) : List (String × ℚ) :=
  (groupKeys le key rows).map fun c => (c, qmean ((groupOf key rows c).map Row.TenYearCHD))

/-- Adding the percentage column: each group mean scaled by 100. -/
def ratePct (le : String → String → Prop) [DecidableRel le]
    (key : Row → Option String) (rows : List Row) : List (String × ℚ) :=
  (groupbyMeanCHD le key rows).map fun p => (p.1, p.2 * 100)

/-- The group-key column for the gender aggregate (never missing). -/
def genderKey (r : Row) : Option String := some r.gender

/-- The group-key column for the smoking-status aggregate (never missing). -/
def smokeKey (r : Row) : Option String := some (smokingStatus r)

/-- The group-key column for the blood-pressure aggregate (never missing). -/
def bpKey (r : Row) : Option String := some r.BP_Category

/-- Lines 73-74: CHD rate by gender, in percent. -/
def chdRateGender (rows : List Row) : List (String × ℚ) :=
  ratePct (· ≤ ·) genderKey rows

/-- Lines 102-103: CHD rate by smoking status, in percent. -/
def chdRateSmoke (rows : List Row) : List (String × ℚ) :=
  ratePct (· ≤ ·) smokeKey rows

/-- Line 89: the fixed semantic order of education levels. -/
def eduOrder : List String :=
  ["Some High School", "High School/GED", "Some College", "College"]

/-- Line 130: the fixed severity order of blood-pressure categories. -/
def bpOrder : List String :=
  ["Normal", "Elevated", "Hypertension Stage 1", "Hypertension Stage 2"]

/-- Sort order used by `sort_values` on a `pd.Categorical(categories=order)`
column: compare positions in `order`; a value not in `order` has position
`order.length` (`List.indexOf`), i.e. sorts last, like a NaN category. -/
def catLe (order : List String) (a b : String × ℚ) : Prop :=
  order.indexOf a.1 ≤ order.indexOf b.1

instance (order : List String) : DecidableRel (catLe order) :=
  fun _ _ => inferInstanceAs (Decidable (_ ≤ _))

instance (order : List String) : IsTotal (String × ℚ) (catLe order) :=
  ⟨fun _ _ => Nat.le_total _ _⟩

instance (order : List String) : IsTrans (String × ℚ) (catLe order) :=
  ⟨fun _ _ _ => Nat.le_trans⟩

/-- Lines 94-95 / 131-132: re-sort an aggregate by a fixed category order. -/
def sortByOrder (order : List String) (ps : List (String × ℚ)) : List (String × ℚ) :=
  List.insertionSort (catLe order) ps

/-- Lines 87-95: CHD rate by education level, in percent, re-sorted into the
fixed order `eduOrder`. -/
def chdRateEdu (rows : List Row) : List (String × ℚ) :=
  sortByOrder eduOrder (ratePct (· ≤ ·) educationLevel rows)

/-- Line 86: `CUSTOM_RED_PALETTE`. -/
def CUSTOM_RED_PALETTE : List String :=
  ["#800020", "#993333", "#A64A4A", "#BFBFBF"]

/-- Line 91: sort_values on the percentage column with ascending=False
applied to the education aggregate — descending by rate. -/
def riskDesc (a b : String × ℚ) : Prop := b.2 ≤ a.2

instance : DecidableRel riskDesc :=
  fun _ _ => inferInstanceAs (Decidable (_ ≤ _))

/-- Lines 91-92: the risk-based colour assignment: zip the categories sorted
by descending rate with the palette. It is computed from a *copy* of the
aggregate and never feeds back into its row order. -/
def colorMapEdu (rows : List Row) : List (String × String) :=
  ((List.insertionSort riskDesc (ratePct (· ≤ ·) educationLevel rows)).map Prod.fst).zip
    CUSTOM_RED_PALETTE

/-- Line 107: smokers_df, the filtered rows with currentSmoker == 1. -/
def smokersDf (rows : List Row) : List Row :=
  rows.filter fun r => decide (r.currentSmoker = 1)

/-- Line 109: the band labels. -/
def intensityLabels : List String :=
  ["Light (1-9)", "Moderate (10-19)", "Heavy (20+)"]

/-- Lines 108-110: pd.cut over cigsPerDay with bins=[0, 9, 19, 70], the
labels above and right=False: left-closed, right-open intervals
`[0,9)`, `[9,19)`, `[19,70)`; values outside `[0,70)` get NaN. -/
def cutIntensity (x : ℚ) : Option String :=
  if 0 ≤ x ∧ x < 9 then some "Light (1-9)"
  else if 9 ≤ x ∧ x < 19 then some "Moderate (10-19)"
  else if 19 ≤ x ∧ x < 70 then some "Heavy (20+)"
  else none

/-- The derived `Smoking_Intensity` column of a row. -/
def intensityKey (r : Row) : Option String :=
  cutIntensity r.cigsPerDay

/-- Modelling of groupby over a categorical column under the pandas 2.x
default observed=False: every category of the dtype appears, in
category-code order, whether observed or not; a category with no rows gets
a missing mean (the mean of an empty series is NaN). Rows whose key is
missing are still dropped from every group. -/
def groupbyMeanCHDCat (cats : List String) (key : Row → Option String)
    (rows : List Row) : List (String × Option ℚ) :=
  cats.map fun c =>
    (c, if groupOf key rows c = [] then none
        else some (qmean ((groupOf key rows c).map Row.TenYearCHD)))

/-- Adding the percentage column to a categorical aggregate: scaling by 100
leaves a missing (NaN) mean missing. -/
def ratePctCat (cats : List String) (key : Row → Option String)
    (rows : List Row) : List (String × Option ℚ) :=
  (groupbyMeanCHDCat cats key rows).map fun p => (p.1, p.2.map (· * 100))

/-- Lines 107-112: CHD rate by smoking-intensity band, in percent, over
current smokers only. The group key is the categorical Smoking_Intensity
column produced by pd.cut, so groupby keeps all three bands (pandas 2.x
observed=False), with a missing rate for a band no filtered smoker
occupies. -/
def chdRateIntensity (rows : List Row) : List (String × Option ℚ) :=
  ratePctCat intensityLabels intensityKey (smokersDf rows)

/-- Lines 128-132: CHD rate by blood-pressure category, in percent,
re-sorted into the fixed order `bpOrder`. -/
def chdRateBP (rows : List Row) : List (String × ℚ) :=
  sortByOrder bpOrder (ratePct (· ≤ ·) bpKey rows)

/-- Line 118: the BMI values of the filtered rows with TenYearCHD == 0. -/
def bmiNoCHD (rows : List Row) : List ℚ :=
  (rows.filter fun r => decide (r.TenYearCHD = 0)).map Row.BMI

/-- Line 119: the BMI values of the filtered rows with TenYearCHD == 1. -/
def bmiCHD (rows : List Row) : List ℚ :=
  (rows.filter fun r => decide (r.TenYearCHD = 1)).map Row.BMI

/-- Line 123: cholesterol values of the CHD-negative group. -/
def cholNoCHD (rows : List Row) : List ℚ :=
  (rows.filter fun r => decide (r.TenYearCHD = 0)).map Row.totChol

/-- Line 124: cholesterol values of the CHD-positive group. -/
def cholCHD (rows : List Row) : List ℚ :=
  (rows.filter fun r => decide (r.TenYearCHD = 1)).map Row.totChol

/-- Everything the pipeline hands to the rendering layer.  The risk-factor
selector (line 58) only chooses which of these are *displayed* (lines
150-165); all of them are computed on every run, before that branch. -/
structure Outputs where
  gender : List (String × ℚ)
  riskAges : List Int
  edu : List (String × ℚ)
  eduColors : List (String × String)
  smoke : List (String × ℚ)
  intensity : List (String × Option ℚ)
  bmiNo : List ℚ
  bmiYes : List ℚ
  cholNo : List ℚ
  cholYes : List ℚ
  bp : List (String × ℚ)
deriving DecidableEq, Repr

/-- Lines 60-134 as one function: filter, then compute every aggregate. -/
def runPipeline (rows : List Row) (genders : List String) (lo hi : Int) : Outputs :=
  let fd := filteredData rows genders lo hi
  { gender := chdRateGender fd
    riskAges := (riskData fd).map Row.age
    edu := chdRateEdu fd
    eduColors := colorMapEdu fd
    smoke := chdRateSmoke fd
    intensity := chdRateIntensity fd
    bmiNo := bmiNoCHD fd
    bmiYes := bmiCHD fd
    cholNo := cholNoCHD fd
    cholYes := cholCHD fd
    bp := chdRateBP fd }

/-- Sample subject: a female non-CHD current smoker of age 45 smoking 0
cigarettes per day. -/
def row0 : Row :=
  { gender := "Female", age := 45, currentSmoker := 1, cigsPerDay := 0,
    education := some 1, BMI := 24, totChol := 180, BP_Category := "Normal",
    TenYearCHD := 0 }

/-- Sample subject: a male CHD-positive current smoker of age 50 smoking 9
cigarettes per day. -/
def row9 : Row :=
  { gender := "Male", age := 50, currentSmoker := 1, cigsPerDay := 9,
    education := some 2, BMI := 25, totChol := 200, BP_Category := "Normal",
    TenYearCHD := 1 }

/-- Sample subject: a male CHD-positive current smoker of age 50 smoking 75
cigarettes per day (outside the bucketed range). -/
def row75 : Row :=
  { gender := "Male", age := 50, currentSmoker := 1, cigsPerDay := 75,
    education := some 3, BMI := 26, totChol := 210, BP_Category := "Elevated",
    TenYearCHD := 1 }

/-! Helper lemmas about the embedded pipeline. -/

/-- Membership in the filtered table is exactly the conjunction of the two
filter conditions. -/
theorem mem_filteredData {rows : List Row} {genders : List String} {lo hi : Int} {r : Row} :
    r ∈ filteredData rows genders lo hi ↔
      r ∈ rows ∧ r.gender ∈ genders ∧ lo ≤ r.age ∧ r.age ≤ hi := by
  simp [filteredData, List.mem_filter, and_assoc]

/-- Membership in smokers_df. -/
theorem mem_smokersDf {rows : List Row} {r : Row} :
    r ∈ smokersDf rows ↔ r ∈ rows ∧ r.currentSmoker = 1 := by
  simp [smokersDf, List.mem_filter]

/-- Membership in a group. -/
theorem mem_groupOf {key : Row → Option String} {rows : List Row} {c : String} {r : Row} :
    r ∈ groupOf key rows c ↔ r ∈ rows ∧ key r = some c := by
  simp [groupOf, List.mem_filter]

/-- The group keys are exactly the observed non-missing keys. -/
theorem mem_groupKeys {le : String → String → Prop} [DecidableRel le]
    {key : Row → Option String} {rows : List Row} {c : String} :
    c ∈ groupKeys le key rows ↔ ∃ r ∈ rows, key r = some c := by
  unfold groupKeys
  rw [List.mem_insertionSort, List.mem_dedup, List.mem_filterMap]

/-- The group keys carry no duplicates. -/
theorem nodup_groupKeys (le : String → String → Prop) [DecidableRel le]
    (key : Row → Option String) (rows : List Row) :
    (groupKeys le key rows).Nodup :=
  (List.perm_insertionSort le _).nodup_iff.mpr (List.nodup_dedup _)

/-- The first components of the rate aggregate are the group keys. -/
theorem map_fst_ratePct (le : String → String → Prop) [DecidableRel le]
    (key : Row → Option String) (rows : List Row) :
    (ratePct le key rows).map Prod.fst = groupKeys le key rows := by
  simp [ratePct, groupbyMeanCHD, List.map_map, Function.comp_def]

/-- A category appears in the rate aggregate iff some row carries it. -/
theorem mem_fst_ratePct {le : String → String → Prop} [DecidableRel le]
    {key : Row → Option String} {rows : List Row} {c : String} :
    c ∈ (ratePct le key rows).map Prod.fst ↔ ∃ r ∈ rows, key r = some c := by
  rw [map_fst_ratePct, mem_groupKeys]

/-- The value attached to a category in the rate aggregate is the mean of
TenYearCHD over its group, scaled by 100. -/
theorem ratePct_val {le : String → String → Prop} [DecidableRel le]
    {key : Row → Option String} {rows : List Row} {c : String} {v : ℚ}
    (h : (c, v) ∈ ratePct le key rows) :
    v = qmean ((groupOf key rows c).map Row.TenYearCHD) * 100 := by
  obtain ⟨p, hp, hpe⟩ := List.mem_map.mp h
  obtain ⟨k, _, rfl⟩ := List.mem_map.mp hp
  obtain ⟨rfl, rfl⟩ := Prod.mk.injEq .. ▸ hpe
  rfl

/-- A pair of the rate aggregate exists for a category iff some row carries
the category. -/
theorem ratePct_exists_iff {le : String → String → Prop} [DecidableRel le]
    {key : Row → Option String} {rows : List Row} {c : String} :
    (∃ v, (c, v) ∈ ratePct le key rows) ↔ ∃ r ∈ rows, key r = some c := by
  constructor
  · rintro ⟨v, hv⟩
    exact mem_fst_ratePct.mp (List.mem_map.mpr ⟨(c, v), hv, rfl⟩)
  · intro h
    have hc : c ∈ groupKeys le key rows := mem_groupKeys.mpr h
    refine ⟨qmean ((groupOf key rows c).map Row.TenYearCHD) * 100, ?_⟩
    exact List.mem_map.mpr ⟨_, List.mem_map.mpr ⟨c, hc, rfl⟩, rfl⟩

/-- A list of zeros and ones sums to the number of ones in it. -/
theorem sum_eq_count_ones (xs : List ℚ) (h : ∀ x ∈ xs, x = 0 ∨ x = 1) :
    xs.sum = ((xs.filter fun x => decide (x = 1)).length : ℚ) := by
  induction xs with
  | nil => simp
  | cons a t ih =>
    have ht := ih fun x hx => h x (List.mem_cons_of_mem a hx)
    rcases h a (List.mem_cons_self a t) with h0 | h1
    · subst h0
      simp only [List.sum_cons, List.filter_cons, ht]
      norm_num
    · subst h1
      simp only [List.sum_cons, List.filter_cons, ht]
      norm_num
      ring

/-- The mean of a nonempty list of values in `[0, 1]` lies in `[0, 1]`. -/
theorem qmean_bounds (xs : List ℚ) (hne : xs ≠ [])
    (h : ∀ x ∈ xs, 0 ≤ x ∧ x ≤ 1) : 0 ≤ qmean xs ∧ qmean xs ≤ 1 := by
  have hlen : (0 : ℚ) < (xs.length : ℚ) := by
    exact_mod_cast List.length_pos.mpr hne
  constructor
  · exact div_nonneg (List.sum_nonneg fun x hx => (h x hx).1) hlen.le
  · rw [qmean, div_le_one hlen]
    have := List.sum_le_card_nsmul xs 1 fun x hx => (h x hx).2
    simpa using this

/-- Every value of the rate aggregate is in `[0, 100]` when the outcome
column only holds zeros and ones. -/
theorem ratePct_bounds {le : String → String → Prop} [DecidableRel le]
    {key : Row → Option String} {rows : List Row}
    (h01 : ∀ r ∈ rows, r.TenYearCHD = 0 ∨ r.TenYearCHD = 1) :
    ∀ p ∈ ratePct le key rows, 0 ≤ p.2 ∧ p.2 ≤ 100 := by
  rintro ⟨c, v⟩ hp
  have hval := ratePct_val hp
  have hc : ∃ r ∈ rows, key r = some c :=
    mem_fst_ratePct.mp (List.mem_map.mpr ⟨(c, v), hp, rfl⟩)
  obtain ⟨r, hr, hkr⟩ := hc
  have hrg : r ∈ groupOf key rows c := mem_groupOf.mpr ⟨hr, hkr⟩
  have hne : (groupOf key rows c).map Row.TenYearCHD ≠ [] := by
    intro hnil
    exact absurd (List.mem_map_of_mem Row.TenYearCHD hrg) (hnil ▸ List.not_mem_nil _)
  have hin : ∀ x ∈ (groupOf key rows c).map Row.TenYearCHD, 0 ≤ x ∧ x ≤ 1 := by
    rintro x hx
    obtain ⟨r', hr', rfl⟩ := List.mem_map.mp hx
    rcases h01 r' (mem_groupOf.mp hr').1 with h0 | h1
    · rw [h0]; norm_num
    · rw [h1]; norm_num
  obtain ⟨hm0, hm1⟩ := qmean_bounds _ hne hin
  constructor
  · show 0 ≤ v
    rw [hval]; positivity
  · show v ≤ 100
    rw [hval]
    nlinarith

/-- Sorting by a fixed category order permutes the aggregate. -/
theorem sortByOrder_perm (order : List String) (ps : List (String × ℚ)) :
    List.Perm (sortByOrder order ps) ps :=
  List.perm_insertionSort _ ps

/-- Sorting by a fixed category order sorts by position in the order. -/
theorem sortByOrder_sorted (order : List String) (ps : List (String × ℚ)) :
    (sortByOrder order ps).Sorted (catLe order) :=
  List.sorted_insertionSort (catLe order) ps

/-- When the keys of an aggregate are distinct and all drawn from `order`,
re-sorting by `order` lists them in strictly increasing `order` position:
they appear exactly in the fixed order. -/
theorem sortByOrder_pairwise (order : List String) (ps : List (String × ℚ))
    (hnd : (ps.map Prod.fst).Nodup) (hsub : ∀ p ∈ ps, p.1 ∈ order) :
    ((sortByOrder order ps).map Prod.fst).Pairwise
      fun a b => order.indexOf a < order.indexOf b := by
  have hperm : List.Perm (sortByOrder order ps) ps := sortByOrder_perm order ps
  have hsort : (sortByOrder order ps).Pairwise (catLe order) :=
    sortByOrder_sorted order ps
  have hnd' : ((sortByOrder order ps).map Prod.fst).Nodup :=
    (hperm.map Prod.fst).nodup_iff.mpr hnd
  have hne : (sortByOrder order ps).Pairwise fun a b => a.1 ≠ b.1 :=
    List.pairwise_map.mp hnd'
  have hsub' : ∀ p ∈ sortByOrder order ps, p.1 ∈ order :=
    fun p hp => hsub p (hperm.mem_iff.mp hp)
  rw [List.pairwise_map]
  refine (hsort.and hne).imp_of_mem ?_
  intro a b ha hb hab
  exact lt_of_le_of_ne hab.1
    fun h => hab.2 ((List.indexOf_inj (hsub' a ha) (hsub' b hb)).mp h)

/-- The education label of a row, when present, is one of the four fixed
education levels. -/
theorem educationMap_mem_eduOrder {x : Option ℚ} {c : String}
    (h : educationMap x = some c) : c ∈ eduOrder := by
  match x with
  | none => simp [educationMap] at h
  | some v =>
    simp only [educationMap] at h
    split_ifs at h <;> simp_all [eduOrder]

/-- Restricting the 0/1 outcome hypothesis along the gender/age filter. -/
theorem h01_filteredData {rows : List Row} {genders : List String} {lo hi : Int}
    (h01 : ∀ r ∈ rows, r.TenYearCHD = 0 ∨ r.TenYearCHD = 1) :
    ∀ r ∈ filteredData rows genders lo hi, r.TenYearCHD = 0 ∨ r.TenYearCHD = 1 :=
  fun r hr => h01 r (mem_filteredData.mp hr).1

/-- Restricting the 0/1 outcome hypothesis along the smoker filter. -/
theorem h01_smokersDf {rows : List Row}
    (h01 : ∀ r ∈ rows, r.TenYearCHD = 0 ∨ r.TenYearCHD = 1) :
    ∀ r ∈ smokersDf rows, r.TenYearCHD = 0 ∨ r.TenYearCHD = 1 :=
  fun r hr => h01 r (mem_smokersDf.mp hr).1

/-- The categorical aggregate lists exactly the dtype categories, in
category order, whatever the rows. -/
theorem map_fst_ratePctCat (cats : List String) (key : Row → Option String)
    (rows : List Row) :
    (ratePctCat cats key rows).map Prod.fst = cats := by
  simp [ratePctCat, groupbyMeanCHDCat, List.map_map, Function.comp_def]

/-- Unpacking a row of the categorical aggregate: its category is a dtype
category, and its value is missing for an empty group and the scaled group
mean otherwise. -/
theorem mem_ratePctCat {cats : List String} {key : Row → Option String}
    {rows : List Row} {c : String} {v : Option ℚ}
    (h : (c, v) ∈ ratePctCat cats key rows) :
    c ∈ cats ∧
      ((groupOf key rows c = [] ∧ v = none) ∨
        (groupOf key rows c ≠ [] ∧
          v = some (qmean ((groupOf key rows c).map Row.TenYearCHD) * 100))) := by
  obtain ⟨p, hp, hpe⟩ := List.mem_map.mp h
  obtain ⟨c0, hc0, rfl⟩ := List.mem_map.mp hp
  obtain ⟨rfl, rfl⟩ := Prod.mk.injEq .. ▸ hpe
  refine ⟨hc0, ?_⟩
  by_cases he : groupOf key rows c0 = []
  · exact Or.inl ⟨he, by simp [he]⟩
  · exact Or.inr ⟨he, by simp [he]⟩

/-- A band of the categorical aggregate with a non-missing value is
occupied by some row. -/
theorem ratePctCat_some_witness {cats : List String} {key : Row → Option String}
    {rows : List Row} {c : String} {q : ℚ}
    (h : (c, some q) ∈ ratePctCat cats key rows) :
    ∃ r ∈ rows, key r = some c := by
  rcases (mem_ratePctCat h).2 with ⟨-, he⟩ | ⟨hne, -⟩
  · exact Option.noConfusion he
  · obtain ⟨r, hr⟩ := List.exists_mem_of_ne_nil _ hne
    exact ⟨r, (mem_groupOf.mp hr).1, (mem_groupOf.mp hr).2⟩

/-- Every non-missing value of the categorical aggregate is in `[0, 100]`
when the outcome column only holds zeros and ones. -/
theorem ratePctCat_bounds {cats : List String} {key : Row → Option String}
    {rows : List Row}
    (h01 : ∀ r ∈ rows, r.TenYearCHD = 0 ∨ r.TenYearCHD = 1) :
    ∀ p ∈ ratePctCat cats key rows, ∀ q : ℚ, p.2 = some q → 0 ≤ q ∧ q ≤ 100 := by
  rintro ⟨c, v⟩ hp q hq
  rcases (mem_ratePctCat hp).2 with ⟨-, rfl⟩ | ⟨hne, rfl⟩
  · exact Option.noConfusion hq
  · obtain rfl := Option.some.inj hq
    have hmapne : (groupOf key rows c).map Row.TenYearCHD ≠ [] := by
      intro hnil
      exact hne (List.map_eq_nil_iff.mp hnil)
    have hin : ∀ x ∈ (groupOf key rows c).map Row.TenYearCHD, 0 ≤ x ∧ x ≤ 1 := by
      rintro x hx
      obtain ⟨r', hr', rfl⟩ := List.mem_map.mp hx
      rcases h01 r' (mem_groupOf.mp hr').1 with h0 | h1
      · rw [h0]; norm_num
      · rw [h1]; norm_num
    obtain ⟨hm0, hm1⟩ := qmean_bounds _ hmapne hin
    constructor
    · positivity
    · nlinarith

/-! Claim theorems. -/

/-- C3: for every gender inclusion set and inclusive age range, a row is in
the filtered output iff it is an input row whose gender is in the inclusion
set and whose age lies within the inclusive range — so the filter is both
sound and complete. -/
theorem spec_C3 (rows : List Row) (genders : List String) (lo hi : Int) (r : Row) :
    r ∈ filteredData rows genders lo hi ↔
      r ∈ rows ∧ r.gender ∈ genders ∧ lo ≤ r.age ∧ r.age ≤ hi :=
  mem_filteredData

/-- C8: the data loader maps the education codes 1.0, 2.0, 3.0, 4.0 to the
four level labels, maps a missing value to a missing label, and maps every
other code to a missing label, raising no error. -/
theorem spec_C8 :
    educationMap (some 1) = some "Some High School" ∧
    educationMap (some 2) = some "High School/GED" ∧
    educationMap (some 3) = some "Some College" ∧
    educationMap (some 4) = some "College" ∧
    educationMap none = none ∧
    ∀ v : ℚ, v ≠ 1 → v ≠ 2 → v ≠ 3 → v ≠ 4 → educationMap (some v) = none := by
  refine ⟨by decide, by decide, by decide, by decide, rfl, ?_⟩
  intro v h1 h2 h3 h4
  simp [educationMap, h1, h2, h3, h4]

/-- Witness for C8 at the unmapped code 7. -/
theorem spec_C8_witness : educationMap (some 7) = none :=
  spec_C8.2.2.2.2.2 7 (by norm_num) (by norm_num) (by norm_num) (by norm_num)

/-- C1, evaluated at the failing input: the code bins cigsPerDay with
pd.cut(bins=[0, 9, 19, 70], right=False), so a smoker with cigsPerDay = 9
lands in the band labeled Moderate (10-19) — not Light (1-9) as the claim
and the label text of the bands state — and 19 lands in Heavy (20+); the
claims about 10 and 25 do hold. On the one-smoker table the Moderate band
carries that smoker while the Light band is present with a missing rate
(all three bands of the categorical appear). -/
theorem spec_C1_eval :
    cutIntensity 9 = some "Moderate (10-19)" ∧
    cutIntensity 9 ≠ some "Light (1-9)" ∧
    cutIntensity 19 = some "Heavy (20+)" ∧
    cutIntensity 10 = some "Moderate (10-19)" ∧
    cutIntensity 25 = some "Heavy (20+)" ∧
    intensityKey row9 = some "Moderate (10-19)" ∧
    row9 ∈ groupOf intensityKey
      (smokersDf (filteredData [row9] ["Male"] 30 70)) "Moderate (10-19)" ∧
    ("Light (1-9)", (none : Option ℚ)) ∈
      chdRateIntensity (filteredData [row9] ["Male"] 30 70) := by
  decide

/-- C10: a filtered row with currentSmoker = 1 and cigsPerDay = 0 is kept by
the smoker restriction, bucketed (the lowest bin is left-closed at 0), and
assigned the band labeled Light (1-9), which therefore appears in the
smoking-intensity aggregate. -/
theorem spec_C10 (rows : List Row) (genders : List String) (lo hi : Int) (r : Row)
    (hmem : r ∈ filteredData rows genders lo hi)
    (hs : r.currentSmoker = 1) (h0 : r.cigsPerDay = 0) :
    intensityKey r = some "Light (1-9)" ∧
    r ∈ groupOf intensityKey (smokersDf (filteredData rows genders lo hi)) "Light (1-9)" ∧
    "Light (1-9)" ∈ (chdRateIntensity (filteredData rows genders lo hi)).map Prod.fst := by
  have hkey : intensityKey r = some "Light (1-9)" := by
    rw [intensityKey, h0]
    decide
  have hsmoker : r ∈ smokersDf (filteredData rows genders lo hi) :=
    mem_smokersDf.mpr ⟨hmem, hs⟩
  refine ⟨hkey, mem_groupOf.mpr ⟨hsmoker, hkey⟩, ?_⟩
  rw [show chdRateIntensity (filteredData rows genders lo hi)
      = ratePctCat intensityLabels intensityKey
          (smokersDf (filteredData rows genders lo hi)) from rfl]
  rw [map_fst_ratePctCat]
  decide

/-- Witness for C10 at a concrete one-row table. -/
theorem spec_C10_witness :
    intensityKey row0 = some "Light (1-9)" ∧
    row0 ∈ groupOf intensityKey (smokersDf (filteredData [row0] ["Female"] 30 70)) "Light (1-9)" ∧
    "Light (1-9)" ∈ (chdRateIntensity (filteredData [row0] ["Female"] 30 70)).map Prod.fst :=
  spec_C10 [row0] ["Female"] 30 70 row0 (by decide) (by decide) (by decide)

/-- Counterexample for C6 as stated: on a table whose only filtered row is
a current smoker with cigsPerDay = 75, the Light (1-9) band still appears
in the smoking-intensity aggregate (pandas 2.x observed=False keeps every
band of the categorical), yet no filtered current smoker occupies it. -/
theorem spec_C6_cex :
    "Light (1-9)" ∈ (chdRateIntensity (filteredData [row75] ["Male"] 30 70)).map Prod.fst ∧
    ¬ ∃ r ∈ filteredData [row75] ["Male"] 30 70,
        r.currentSmoker = 1 ∧ intensityKey r = some "Light (1-9)" := by
  constructor
  · decide
  · rintro ⟨r, hr, -, hk⟩
    have h75 : r = row75 := by simpa using (mem_filteredData.mp hr).1
    rw [h75] at hk
    exact absurd hk (by decide)

/-- C6 amended: the intensity rates are computed over rows with
currentSmoker = 1 only; a cigsPerDay value outside the interval from 0
inclusive to 70 exclusive is given no band (total function, no error) and
such a row lies in no band group; the aggregate always lists exactly the
three fixed bands (observed or not), and every band carrying a non-missing
rate is witnessed by a filtered current smoker. -/
theorem spec_C6_amended (rows : List Row) (genders : List String) (lo hi : Int) :
    (∀ r ∈ smokersDf (filteredData rows genders lo hi), r.currentSmoker = 1) ∧
    (∀ x : ℚ, ¬(0 ≤ x ∧ x < 70) → cutIntensity x = none) ∧
    (∀ r ∈ filteredData rows genders lo hi, ¬(0 ≤ r.cigsPerDay ∧ r.cigsPerDay < 70) →
      ∀ c : String, r ∉ groupOf intensityKey (smokersDf (filteredData rows genders lo hi)) c) ∧
    ((chdRateIntensity (filteredData rows genders lo hi)).map Prod.fst = intensityLabels) ∧
    (∀ c (q : ℚ), (c, some q) ∈ chdRateIntensity (filteredData rows genders lo hi) →
      ∃ r ∈ filteredData rows genders lo hi, r.currentSmoker = 1 ∧ intensityKey r = some c) := by
  have hcut : ∀ x : ℚ, ¬(0 ≤ x ∧ x < 70) → cutIntensity x = none := by
    intro x hx
    unfold cutIntensity
    split_ifs with h1 h2 h3
    · exact absurd ⟨h1.1, lt_trans h1.2 (by norm_num)⟩ hx
    · exact absurd ⟨le_trans (by norm_num) h2.1, lt_trans h2.2 (by norm_num)⟩ hx
    · exact absurd ⟨le_trans (by norm_num) h3.1, h3.2⟩ hx
    · rfl
  refine ⟨fun r hr => (mem_smokersDf.mp hr).2, hcut, ?_,
    map_fst_ratePctCat intensityLabels intensityKey _, ?_⟩
  · intro r _ hbad c hg
    have hk := (mem_groupOf.mp hg).2
    rw [intensityKey, hcut _ hbad] at hk
    exact Option.noConfusion hk
  · intro c q hc
    obtain ⟨r, hr, hkey⟩ := ratePctCat_some_witness hc
    obtain ⟨hrf, hsm⟩ := mem_smokersDf.mp hr
    exact ⟨r, hrf, hsm, hkey⟩

/-- Witness for C6 amended: cigsPerDay = 75 gets no band and joins no band
group. -/
theorem spec_C6_witness :
    cutIntensity 75 = none ∧
    row75 ∉ groupOf intensityKey (smokersDf (filteredData [row75] ["Male"] 30 70)) "Heavy (20+)" := by
  have h := spec_C6_amended [row75] ["Male"] 30 70
  exact ⟨h.2.1 75 (by decide), h.2.2.1 row75 (by decide) (by decide) "Heavy (20+)"⟩

/-- Counterexample for C7 as stated: with an age range that excludes the
only row, the filtered set is empty, yet the smoking-intensity aggregate is
not the empty result — pandas 2.x observed=False keeps all three bands of
the categorical, each with a missing (NaN) rate. -/
theorem spec_C7_cex :
    filteredData [row0] ["Female"] 50 40 = [] ∧
    chdRateIntensity (filteredData [row0] ["Female"] 50 40) ≠ [] ∧
    chdRateIntensity (filteredData [row0] ["Female"] 50 40) =
      [("Light (1-9)", none), ("Moderate (10-19)", none), ("Heavy (20+)", none)] := by
  decide

/-- C7 amended: when the gender/age filter empties the table, every
aggregate except smoking intensity is the empty result; the
smoking-intensity aggregate is its three fixed bands, each with a missing
(NaN) rate — still no error. -/
theorem spec_C7_amended (rows : List Row) (genders : List String) (lo hi : Int)
    (h : filteredData rows genders lo hi = []) :
    chdRateGender (filteredData rows genders lo hi) = [] ∧
    chdRateEdu (filteredData rows genders lo hi) = [] ∧
    chdRateSmoke (filteredData rows genders lo hi) = [] ∧
    chdRateIntensity (filteredData rows genders lo hi) =
      [("Light (1-9)", none), ("Moderate (10-19)", none), ("Heavy (20+)", none)] ∧
    chdRateBP (filteredData rows genders lo hi) = [] ∧
    bmiNoCHD (filteredData rows genders lo hi) = [] ∧
    bmiCHD (filteredData rows genders lo hi) = [] ∧
    cholNoCHD (filteredData rows genders lo hi) = [] ∧
    cholCHD (filteredData rows genders lo hi) = [] ∧
    riskData (filteredData rows genders lo hi) = [] ∧
    colorMapEdu (filteredData rows genders lo hi) = [] := by
  rw [h]
  exact ⟨rfl, rfl, rfl, rfl, rfl, rfl, rfl, rfl, rfl, rfl, rfl⟩

/-- Witness for C7 amended: an age range that excludes the only row. -/
theorem spec_C7_witness :
    chdRateGender (filteredData [row0] ["Female"] 50 40) = [] ∧
    chdRateIntensity (filteredData [row0] ["Female"] 50 40) =
      [("Light (1-9)", none), ("Moderate (10-19)", none), ("Heavy (20+)", none)] :=
  ⟨(spec_C7_amended [row0] ["Female"] 50 40 (by decide)).1,
   (spec_C7_amended [row0] ["Female"] 50 40 (by decide)).2.2.2.1⟩

/-- C9: the pipeline is a pure function of the loaded table and the filter
settings — two runs on identical inputs produce identical aggregate outputs
(the risk-factor selector only chooses which outputs are displayed; all of
them are recomputed on every run, before that choice). -/
theorem spec_C9 (rows₁ rows₂ : List Row) (g₁ g₂ : List String)
    (lo₁ lo₂ hi₁ hi₂ : Int)
    (hrows : rows₁ = rows₂) (hg : g₁ = g₂) (hlo : lo₁ = lo₂) (hhi : hi₁ = hi₂) :
    runPipeline rows₁ g₁ lo₁ hi₁ = runPipeline rows₂ g₂ lo₂ hi₂ := by
  subst hrows hg hlo hhi
  rfl

/-- Witness for C9 at a concrete run. -/
theorem spec_C9_witness :
    runPipeline [row0, row9] ["Female", "Male"] 30 70 =
      runPipeline [row0, row9] ["Female", "Male"] 30 70 :=
  spec_C9 [row0, row9] [row0, row9] ["Female", "Male"] ["Female", "Male"]
    30 30 70 70 rfl rfl rfl rfl

/-- In a 0/1 outcome column, the group mean scaled by 100 is the share of
rows with outcome 1, as a percentage. -/
theorem ratePct_val_count {le : String → String → Prop} [DecidableRel le]
    {key : Row → Option String} {rows : List Row} {c : String} {v : ℚ}
    (h01 : ∀ r ∈ rows, r.TenYearCHD = 0 ∨ r.TenYearCHD = 1)
    (h : (c, v) ∈ ratePct le key rows) :
    v = (((groupOf key rows c).filter fun r => decide (r.TenYearCHD = 1)).length : ℚ) /
        ((groupOf key rows c).length : ℚ) * 100 := by
  have hsum : ((groupOf key rows c).map Row.TenYearCHD).sum
      = (((groupOf key rows c).filter fun r => decide (r.TenYearCHD = 1)).length : ℚ) := by
    rw [sum_eq_count_ones _ ?h01m]
    case h01m =>
      intro x hx
      obtain ⟨r', hr', rfl⟩ := List.mem_map.mp hx
      exact h01 r' (mem_groupOf.mp hr').1
    rw [List.filter_map, List.length_map]
    rfl
  rw [ratePct_val h, qmean, hsum, List.length_map]

/-- C2: in every rate-by-category aggregate (gender, education, smoking
status, blood pressure), a present category carries the value (rows of the
group with TenYearCHD = 1 over rows of the group) times 100, and a
category appears iff some filtered row carries it — absent categories are
not zero-filled, they are missing. -/
theorem spec_C2 (rows : List Row) (genders : List String) (lo hi : Int)
    (h01 : ∀ r ∈ rows, r.TenYearCHD = 0 ∨ r.TenYearCHD = 1) :
    (∀ c v, (c, v) ∈ chdRateGender (filteredData rows genders lo hi) →
      v = (((groupOf genderKey (filteredData rows genders lo hi) c).filter
              fun r => decide (r.TenYearCHD = 1)).length : ℚ) /
          ((groupOf genderKey (filteredData rows genders lo hi) c).length : ℚ) * 100) ∧
    (∀ c, (∃ v, (c, v) ∈ chdRateGender (filteredData rows genders lo hi)) ↔
      ∃ r ∈ filteredData rows genders lo hi, r.gender = c) ∧
    (∀ c v, (c, v) ∈ chdRateEdu (filteredData rows genders lo hi) →
      v = (((groupOf educationLevel (filteredData rows genders lo hi) c).filter
              fun r => decide (r.TenYearCHD = 1)).length : ℚ) /
          ((groupOf educationLevel (filteredData rows genders lo hi) c).length : ℚ) * 100) ∧
    (∀ c, (∃ v, (c, v) ∈ chdRateEdu (filteredData rows genders lo hi)) ↔
      ∃ r ∈ filteredData rows genders lo hi, educationLevel r = some c) ∧
    (∀ c v, (c, v) ∈ chdRateSmoke (filteredData rows genders lo hi) →
      v = (((groupOf smokeKey (filteredData rows genders lo hi) c).filter
              fun r => decide (r.TenYearCHD = 1)).length : ℚ) /
          ((groupOf smokeKey (filteredData rows genders lo hi) c).length : ℚ) * 100) ∧
    (∀ c, (∃ v, (c, v) ∈ chdRateSmoke (filteredData rows genders lo hi)) ↔
      ∃ r ∈ filteredData rows genders lo hi, smokingStatus r = c) ∧
    (∀ c v, (c, v) ∈ chdRateBP (filteredData rows genders lo hi) →
      v = (((groupOf bpKey (filteredData rows genders lo hi) c).filter
              fun r => decide (r.TenYearCHD = 1)).length : ℚ) /
          ((groupOf bpKey (filteredData rows genders lo hi) c).length : ℚ) * 100) ∧
    (∀ c, (∃ v, (c, v) ∈ chdRateBP (filteredData rows genders lo hi)) ↔
      ∃ r ∈ filteredData rows genders lo hi, r.BP_Category = c) := by
  have hfd : ∀ r ∈ filteredData rows genders lo hi, r.TenYearCHD = 0 ∨ r.TenYearCHD = 1 :=
    h01_filteredData h01
  refine ⟨?_, ?_, ?_, ?_, ?_, ?_, ?_, ?_⟩
  · intro c v hcv
    exact ratePct_val_count hfd hcv
  · intro c
    rw [show chdRateGender (filteredData rows genders lo hi)
        = ratePct (· ≤ ·) genderKey (filteredData rows genders lo hi) from rfl]
    rw [ratePct_exists_iff]
    simp [genderKey]
  · intro c v hcv
    exact ratePct_val_count hfd
      ((sortByOrder_perm eduOrder _).mem_iff.mp hcv)
  · intro c
    rw [show chdRateEdu (filteredData rows genders lo hi)
        = sortByOrder eduOrder
            (ratePct (· ≤ ·) educationLevel (filteredData rows genders lo hi)) from rfl]
    rw [exists_congr fun v => (sortByOrder_perm eduOrder _).mem_iff]
    rw [ratePct_exists_iff]
  · intro c v hcv
    exact ratePct_val_count hfd hcv
  · intro c
    rw [show chdRateSmoke (filteredData rows genders lo hi)
        = ratePct (· ≤ ·) smokeKey (filteredData rows genders lo hi) from rfl]
    rw [ratePct_exists_iff]
    simp [smokeKey]
  · intro c v hcv
    exact ratePct_val_count hfd
      ((sortByOrder_perm bpOrder _).mem_iff.mp hcv)
  · intro c
    rw [show chdRateBP (filteredData rows genders lo hi)
        = sortByOrder bpOrder
            (ratePct (· ≤ ·) bpKey (filteredData rows genders lo hi)) from rfl]
    rw [exists_congr fun v => (sortByOrder_perm bpOrder _).mem_iff]
    rw [ratePct_exists_iff]
    simp [bpKey]

/-- Witness for C2: the Male rate of a one-male table equals the counting
formula. -/
theorem spec_C2_witness :
    qmean ((groupOf genderKey (filteredData [row9] ["Male"] 30 70) "Male").map
        Row.TenYearCHD) * 100 =
      (((groupOf genderKey (filteredData [row9] ["Male"] 30 70) "Male").filter
          fun r => decide (r.TenYearCHD = 1)).length : ℚ) /
        ((groupOf genderKey (filteredData [row9] ["Male"] 30 70) "Male").length : ℚ) * 100 := by
  have h := spec_C2 [row9] ["Male"] 30 70 (by decide)
  refine h.1 "Male" _ ?_
  exact List.mem_map.mpr
    ⟨("Male", qmean ((groupOf genderKey (filteredData [row9] ["Male"] 30 70) "Male").map
        Row.TenYearCHD)),
      List.mem_map.mpr ⟨"Male", mem_groupKeys.mpr ⟨row9, by decide, rfl⟩, rfl⟩, rfl⟩

/-- Counterexample for C5 as stated: with the only filtered smoker at
cigsPerDay = 75 (no band), the smoking-intensity aggregate still produces
a Light (1-9) row, and its rate is the missing value NaN — not a number
within 0 and 100; no rational value at all is attached to that band. -/
theorem spec_C5_cex :
    ("Light (1-9)", (none : Option ℚ)) ∈
      chdRateIntensity (filteredData [row75] ["Male"] 30 70) ∧
    ¬ ∃ q : ℚ, ("Light (1-9)", some q) ∈
      chdRateIntensity (filteredData [row75] ["Male"] 30 70) := by
  constructor
  · decide
  · rintro ⟨q, hq⟩
    obtain ⟨r, hr, hk⟩ := ratePctCat_some_witness hq
    have h75 : r = row75 := by
      simpa using (mem_filteredData.mp (mem_smokersDf.mp hr).1).1
    rw [h75] at hk
    exact absurd hk (by decide)

/-- C5 amended: when every outcome value is 0 or 1, every percentage in the
gender, education, smoking-status and blood-pressure aggregates lies
within 0 and 100, and so does every non-missing percentage in the
smoking-intensity aggregate (a band no filtered smoker occupies carries a
missing NaN rate instead of a number). -/
theorem spec_C5_amended (rows : List Row) (genders : List String) (lo hi : Int)
    (h01 : ∀ r ∈ rows, r.TenYearCHD = 0 ∨ r.TenYearCHD = 1) :
    (∀ p ∈ chdRateGender (filteredData rows genders lo hi), 0 ≤ p.2 ∧ p.2 ≤ 100) ∧
    (∀ p ∈ chdRateEdu (filteredData rows genders lo hi), 0 ≤ p.2 ∧ p.2 ≤ 100) ∧
    (∀ p ∈ chdRateSmoke (filteredData rows genders lo hi), 0 ≤ p.2 ∧ p.2 ≤ 100) ∧
    (∀ p ∈ chdRateIntensity (filteredData rows genders lo hi),
      ∀ q : ℚ, p.2 = some q → 0 ≤ q ∧ q ≤ 100) ∧
    (∀ p ∈ chdRateBP (filteredData rows genders lo hi), 0 ≤ p.2 ∧ p.2 ≤ 100) := by
  have hfd : ∀ r ∈ filteredData rows genders lo hi, r.TenYearCHD = 0 ∨ r.TenYearCHD = 1 :=
    h01_filteredData h01
  have hsm : ∀ r ∈ smokersDf (filteredData rows genders lo hi),
      r.TenYearCHD = 0 ∨ r.TenYearCHD = 1 := h01_smokersDf hfd
  refine ⟨ratePct_bounds hfd, ?_, ratePct_bounds hfd, ratePctCat_bounds hsm, ?_⟩
  · intro p hp
    exact ratePct_bounds hfd p ((sortByOrder_perm eduOrder _).mem_iff.mp hp)
  · intro p hp
    exact ratePct_bounds hfd p ((sortByOrder_perm bpOrder _).mem_iff.mp hp)

/-- Witness for C5 amended: the bounds at the concrete Female rate of a
one-row table. -/
theorem spec_C5_witness :
    0 ≤ qmean ((groupOf genderKey (filteredData [row0] ["Female"] 30 70) "Female").map
        Row.TenYearCHD) * 100 ∧
    qmean ((groupOf genderKey (filteredData [row0] ["Female"] 30 70) "Female").map
        Row.TenYearCHD) * 100 ≤ 100 := by
  have h := spec_C5_amended [row0] ["Female"] 30 70 (by decide)
  have hmem : (("Female" : String),
      qmean ((groupOf genderKey (filteredData [row0] ["Female"] 30 70) "Female").map
        Row.TenYearCHD) * 100) ∈ chdRateGender (filteredData [row0] ["Female"] 30 70) :=
    List.mem_map.mpr
      ⟨("Female", qmean ((groupOf genderKey (filteredData [row0] ["Female"] 30 70) "Female").map
          Row.TenYearCHD)),
        List.mem_map.mpr ⟨"Female", mem_groupKeys.mpr ⟨row0, by decide, rfl⟩, rfl⟩, rfl⟩
  exact ⟨(h.1 _ hmem).1, (h.1 _ hmem).2⟩

/-- C4: whatever the input rows and their order, the education aggregate
lists its present categories in strictly increasing position of the fixed
order Some High School, High School/GED, Some College, College, and the
blood-pressure aggregate in strictly increasing position of the fixed order
Normal, Elevated, Hypertension Stage 1, Hypertension Stage 2 (assuming the
data model: BP_Category only takes those four values); the risk-based
colour assignment plays no role in either order, which is fixed
unconditionally. -/
theorem spec_C4 (rows : List Row) (genders : List String) (lo hi : Int)
    (hbp : ∀ r ∈ rows, r.BP_Category ∈ bpOrder) :
    ((chdRateEdu (filteredData rows genders lo hi)).map Prod.fst).Pairwise
      (fun a b => eduOrder.indexOf a < eduOrder.indexOf b) ∧
    (∀ c, c ∈ (chdRateEdu (filteredData rows genders lo hi)).map Prod.fst ↔
      ∃ r ∈ filteredData rows genders lo hi, educationLevel r = some c) ∧
    ((chdRateBP (filteredData rows genders lo hi)).map Prod.fst).Pairwise
      (fun a b => bpOrder.indexOf a < bpOrder.indexOf b) ∧
    (∀ c, c ∈ (chdRateBP (filteredData rows genders lo hi)).map Prod.fst ↔
      ∃ r ∈ filteredData rows genders lo hi, r.BP_Category = c) := by
  have hndE : ((ratePct (· ≤ ·) educationLevel (filteredData rows genders lo hi)).map
      Prod.fst).Nodup := by
    rw [map_fst_ratePct]
    exact nodup_groupKeys _ _ _
  have hsubE : ∀ p ∈ ratePct (· ≤ ·) educationLevel (filteredData rows genders lo hi),
      p.1 ∈ eduOrder := by
    intro p hp
    obtain ⟨r, _, hk⟩ := mem_fst_ratePct.mp (List.mem_map_of_mem Prod.fst hp)
    exact educationMap_mem_eduOrder hk
  have hndB : ((ratePct (· ≤ ·) bpKey (filteredData rows genders lo hi)).map
      Prod.fst).Nodup := by
    rw [map_fst_ratePct]
    exact nodup_groupKeys _ _ _
  have hsubB : ∀ p ∈ ratePct (· ≤ ·) bpKey (filteredData rows genders lo hi),
      p.1 ∈ bpOrder := by
    intro p hp
    obtain ⟨r, hr, hk⟩ := mem_fst_ratePct.mp (List.mem_map_of_mem Prod.fst hp)
    have : r.BP_Category = p.1 := Option.some.injEq .. ▸ hk
    exact this ▸ hbp r (mem_filteredData.mp hr).1
  refine ⟨sortByOrder_pairwise eduOrder _ hndE hsubE, ?_,
    sortByOrder_pairwise bpOrder _ hndB hsubB, ?_⟩
  · intro c
    rw [show chdRateEdu (filteredData rows genders lo hi)
        = sortByOrder eduOrder
            (ratePct (· ≤ ·) educationLevel (filteredData rows genders lo hi)) from rfl]
    rw [((sortByOrder_perm eduOrder _).map Prod.fst).mem_iff, mem_fst_ratePct]
  · intro c
    rw [show chdRateBP (filteredData rows genders lo hi)
        = sortByOrder bpOrder
            (ratePct (· ≤ ·) bpKey (filteredData rows genders lo hi)) from rfl]
    rw [((sortByOrder_perm bpOrder _).map Prod.fst).mem_iff, mem_fst_ratePct]
    simp [bpKey]

/-- Witness for C4 on a concrete two-row table. -/
theorem spec_C4_witness :
    ((chdRateEdu (filteredData [row0, row9] ["Female", "Male"] 30 70)).map Prod.fst).Pairwise
      (fun a b => eduOrder.indexOf a < eduOrder.indexOf b) ∧
    ((chdRateBP (filteredData [row0, row9] ["Female", "Male"] 30 70)).map Prod.fst).Pairwise
      (fun a b => bpOrder.indexOf a < bpOrder.indexOf b) := by
  have h := spec_C4 [row0, row9] ["Female", "Male"] 30 70 (by decide)
  exact ⟨h.1, h.2.2.1⟩
